import Mathlib

/-!
A shallow embedding of the BuiltWith MCP server (`src/bw-mcp-v1.js`), the
dual-transport tool/prompt gateway described in the specification.  JavaScript
values that the code inspects are modelled by an inductive `Json` type with
JS truthiness, strings are `String`/`List Char`, and the stateful parts
(AsyncLocalStorage scoping, the HTTP route handlers, the fetch call) are
modelled by explicit state passing and by threading an upstream-behaviour
function.  Each definition mirrors the correspondingly named function of the
source file.
-/

namespace BwMcp

/-- JSON values as produced by `response.json()` and consumed by the
normalizers.  `obj` keeps the field list in order; JS objects have unique
keys, and `getField` looks up the first binding like property access does. -/
inductive Json where
  | null
  | bool (b : Bool)
  | num (n : Int)
  | str (s : String)
  | arr (items : List Json)
  | obj (fields : List (String × Json))

/-- JS truthiness of a JSON value (`if (!tech) continue`, `value || ""`):
`null`, `false`, `0` and `""` are falsy; arrays and objects are truthy. -/
def jsTruthy : Json → Bool
  | .null => false
  | .bool b => b
  | .num n => n != 0
  | .str s => s != ""
  | .arr _ => true
  | .obj _ => true

/-- Optional-chained property access `x?.k`: a field lookup on an object,
`undefined` (here `none`) on every other value. -/
def getField : Json → String → Option Json
  | .obj fields, k => fields.lookup k
  | _, _ => none

/-- Optional-chained index access `x?.[i]`. -/
def getIndex : Json → Nat → Option Json
  | .arr items, i => items.get? i
  | _, _ => none

/-- `tech.Name || ""` — the field's value when present and truthy, the empty
string otherwise (source lines 138-143). -/
def fieldOrEmpty (tech : Json) (k : String) : Json :=
  match getField tech k with
  | some v => if jsTruthy v then v else .str ""
  | none => .str ""

/-- One flattened record pushed by `extractTechnologies`. -/
structure TechRecord where
  Name : Json
  Description : Json
  Tag : Json
  Link : Json

/-- The record built from one technology entry (source lines 138-143). -/
def mkTechRecord (tech : Json) : TechRecord :=
  ⟨fieldOrEmpty tech "Name", fieldOrEmpty tech "Description",
   fieldOrEmpty tech "Tag", fieldOrEmpty tech "Link"⟩

/-- The inner loop of `extractTechnologies` over one `Technologies` array:
falsy entries are skipped (`if (!tech) continue`), every other entry is
pushed as a record, in order. -/
def extractFromTechs : List Json → List TechRecord
  | [] => []
  | tech :: rest =>
    if jsTruthy tech then mkTechRecord tech :: extractFromTechs rest
    else extractFromTechs rest

/-- The outer loop of `extractTechnologies` over the `Paths` array: a path
whose `Technologies` field is not an array is skipped (`continue`). -/
def extractFromPaths : List Json → List TechRecord
  | [] => []
  | p :: rest =>
    match getField p "Technologies" with
    | some (.arr techs) => extractFromTechs techs ++ extractFromPaths rest
    | _ => extractFromPaths rest

/-- The optional chain `data?.Results?.[0]?.Result?.Paths` (source line 129). -/
def pathsOf (data : Json) : Option Json :=
  (((getField data "Results").bind (fun r => getIndex r 0)).bind
    (fun r => getField r "Result")).bind (fun r => getField r "Paths")

/-- `extractTechnologies` (source lines 127-148): flatten
`Results[0].Result.Paths[*].Technologies[*]` into an ordered list of records;
when `Paths` is absent or not an array the result is the empty list. -/
def extractTechnologies (data : Json) : List TechRecord :=
  match pathsOf data with
  | some (.arr paths) => extractFromPaths paths
  | _ => []

/-- The elements of one path's `Technologies` array ([] when it is not an
array) — the claim-side notion of the technology entries contributed by one
path object. -/
def pathTechs (p : Json) : List Json :=
  match getField p "Technologies" with
  | some (.arr techs) => techs
  | _ => []

/-- All technology entries of a response, in order — the claim-side count
`N` of `Results[0].Result.Paths[*].Technologies[*]` elements. -/
def allTechEntries (data : Json) : List Json :=
  match pathsOf data with
  | some (.arr paths) => paths.flatMap pathTechs
  | _ => []

theorem extractFromTechs_eq (techs : List Json) :
    extractFromTechs techs = (techs.filter jsTruthy).map mkTechRecord := by
  induction techs with
  | nil => rfl
  | cons t rest ih =>
    by_cases h : jsTruthy t
    · simp [extractFromTechs, List.filter_cons, h, ih]
    · simp [extractFromTechs, List.filter_cons, h, ih]

theorem extractFromPaths_eq (paths : List Json) :
    extractFromPaths paths =
      ((paths.flatMap pathTechs).filter jsTruthy).map mkTechRecord := by
  induction paths with
  | nil => rfl
  | cons p rest ih =>
    rcases hp : getField p "Technologies" with _ | j
    · simp [extractFromPaths, pathTechs, hp, List.flatMap_cons, ih]
    · cases j with
      | arr techs =>
        simp [extractFromPaths, pathTechs, hp, List.flatMap_cons,
          List.filter_append, List.map_append, ih, extractFromTechs_eq]
      | null => simp [extractFromPaths, pathTechs, hp, List.flatMap_cons, ih]
      | bool b => simp [extractFromPaths, pathTechs, hp, List.flatMap_cons, ih]
      | num n => simp [extractFromPaths, pathTechs, hp, List.flatMap_cons, ih]
      | str s => simp [extractFromPaths, pathTechs, hp, List.flatMap_cons, ih]
      | obj fields => simp [extractFromPaths, pathTechs, hp, List.flatMap_cons, ih]

/-- The AsyncLocalStorage store shape: `{ api_key: string | null }` bound by
`als.run({ apiKey }, ...)` (source lines 24-25, 433). -/
structure AlsStore where
  apiKey : Option String
deriving DecidableEq

/-- JS truthiness of a `string | null | undefined` value: `null`, `undefined`
and `""` are falsy. -/
def truthyStr : Option String → Bool
  | none => false
  | some s => s != ""

/-- JS `a || b` on `string | null | undefined` values. -/
def jsOrStr (a b : Option String) : Option String :=
  if truthyStr a then a else b

/-- `getCurrentApiKey` (source lines 60-64): `store?.apiKey ||
BUILTWITH_API_KEY` — the per-request key from the AsyncLocalStorage store
when one is bound and truthy, otherwise the process-wide fallback. -/
def getCurrentApiKey (store : Option AlsStore) (fallback : Option String) :
    Option String :=
  jsOrStr (store.bind AlsStore.apiKey) fallback

/-- The parameter values handed to `requestBuiltWithJson`:
`string | number | boolean | null | undefined`; only the variants the tool
mappers produce are modelled. -/
inductive JsVal where
  | undef
  | null
  | str (s : String)
  | boolv (b : Bool)
deriving DecidableEq

/-- JS `String(value)` on a parameter value. -/
def jsValString : JsVal → String
  | .undef => "undefined"
  | .null => "null"
  | .str s => s
  | .boolv true => "true"
  | .boolv false => "false"

/-- The filter of source lines 75-79: a parameter is put on the query string
iff `value !== undefined && value !== null && String(value).length > 0`. -/
def sendableParam (v : JsVal) : Bool :=
  v != JsVal.undef && v != JsVal.null && (jsValString v).length != 0

/-- The constructed target URL: `https://` scheme, hostname, path and the
ordered query-parameter list (percent-encoding is not modelled; no claim
depends on it). -/
structure Url where
  hostname : String
  path : String
  query : List (String × String)
deriving DecidableEq

/-- Deletion of every binding of a key, used by `URLSearchParams.set` when
it overwrites. -/
def removeParam (q : List (String × String)) (k : String) :
    List (String × String) :=
  q.filter (fun kv => kv.1 != k)

/-- `url.searchParams.set(k, v)`: overwrite the first binding of `k` and
drop any further ones, or append when `k` is absent. -/
def setParam : List (String × String) → String → String →
    List (String × String)
  | [], k, v => [(k, v)]
  | kv :: rest, k, v =>
    if kv.1 = k then (k, v) :: removeParam rest k
    else kv :: setParam rest k v

/-- URL construction of `requestBuiltWithJson` (source lines 72-79):
`https://{hostname}/{path}`, then `KEY` is set to the credential, then each
sendable entry of `params` is set in order. -/
def buildUrl (hostname path apiKey : String)
    (params : List (String × JsVal)) : Url :=
  let q0 := setParam [] "KEY" apiKey
  let q := params.foldl
    (fun q kv => if sendableParam kv.2 then setParam q kv.1 (jsValString kv.2)
                 else q) q0
  ⟨hostname, path, q⟩

/-- The behaviour of one `fetch` + body-parse round trip, threaded into the
upstream client as an oracle: the fetch may throw, the body may fail to
parse as JSON, the status may be non-ok, or everything succeeds. -/
inductive FetchOutcome where
  | netError (message : String)
  | notJson (status : Int)
  | httpError (status : Int) (data : Json)
  | success (data : Json)

/-- The result shape of `requestBuiltWithJson`: `{ok: true, data}` or
`{ok: false, error}`. -/
inductive UpstreamResult where
  | ok (data : Json)
  | failed (error : Json)

/-- The `AuthMissing` failure payload of source line 69. -/
def missingKeyError : Json :=
  .obj [("error", .str "Missing BuiltWith API key.")]

/-- `requestBuiltWithJson` (source lines 66-119).  Along with the result it
returns the list of outbound network calls it performed, so that
"no network call" claims are statements about the second component. -/
def requestBuiltWithJson (store : Option AlsStore) (fallback : Option String)
    (hostname path : String) (params : List (String × JsVal))
    (fetch : Url → FetchOutcome) : UpstreamResult × List Url :=
  match getCurrentApiKey store fallback with
  | none => (.failed missingKeyError, [])
  | some apiKey =>
    if apiKey = "" then (.failed missingKeyError, [])
    else
      let url := buildUrl hostname path apiKey params
      match fetch url with
      | .netError msg =>
        (.failed (.obj [("error", .str "Failed to reach BuiltWith API."),
                        ("details", .str msg)]), [url])
      | .notJson status =>
        (.failed (.obj [("error", .str "BuiltWith API did not return JSON."),
                        ("status", .num status)]), [url])
      | .httpError status data =>
        (.failed (.obj [("error", .str "BuiltWith API error."),
                        ("status", .num status), ("data", data)]), [url])
      | .success data => (.ok data, [url])

/-- One content item of an MCP tool result; the source serializes the
payload with `JSON.stringify`, modelled by carrying the payload value
itself (no claim concerns the textual encoding). -/
structure ContentItem where
  itemType : String
  payload : Json

/-- `buildResponse` (source lines 30-32). -/
structure McpResponse where
  content : List ContentItem

/-- `buildResponse(payload)`. -/
def buildResponse (payload : Json) : McpResponse :=
  ⟨[⟨"text", payload⟩]⟩

/-- `handleBuiltWithJson` (source lines 121-125): call upstream and wrap
either the error payload or the data in a response envelope. -/
def handleBuiltWithJson (store : Option AlsStore) (fallback : Option String)
    (hostname path : String) (params : List (String × JsVal))
    (fetch : Url → FetchOutcome) : McpResponse × List Url :=
  let res := requestBuiltWithJson store fallback hostname path params fetch
  match res.1 with
  | .failed e => (buildResponse e, res.2)
  | .ok data => (buildResponse data, res.2)

/-- The "no technologies found" marker payload (source line 308). -/
def noTechnologiesError : Json :=
  .obj [("error", .str "No technologies found")]

/-- A flattened record as it appears in the `domain-lookup` payload. -/
def techRecordJson (r : TechRecord) : Json :=
  .obj [("Name", r.Name), ("Description", r.Description),
        ("Tag", r.Tag), ("Link", r.Link)]

/-- The `LIVEONLY` parameter value of the `domain-lookup` handler
(source line 302): `liveOnly === false ? undefined : "yes"`. -/
def liveOnlyParam (liveOnly : Option Bool) : JsVal :=
  match liveOnly with
  | some false => .undef
  | _ => .str "yes"

/-- The `domain-lookup` tool handler (source lines 295-312): call
`v22/api.json` with `LOOKUP` and `LIVEONLY` (`LIVEONLY` is `undefined` when
`liveOnly === false`, else `"yes"`), pass failures through, flatten the
data, and substitute the "no technologies found" marker for an empty
flattened list. -/
def domainLookupHandler (domain : String) (liveOnly : Option Bool)
    (store : Option AlsStore) (fallback : Option String) (hostname : String)
    (fetch : Url → FetchOutcome) : McpResponse × List Url :=
  let params : List (String × JsVal) :=
    [("LOOKUP", .str domain), ("LIVEONLY", liveOnlyParam liveOnly)]
  let res := requestBuiltWithJson store fallback hostname "v22/api.json" params
    fetch
  match res.1 with
  | .failed e => (buildResponse e, res.2)
  | .ok data =>
    let extracted := extractTechnologies data
    if extracted.length = 0 then (buildResponse noTechnologiesError, res.2)
    else (buildResponse (.arr (extracted.map techRecordJson)), res.2)

/-- The zod base types the registered schemas use (`z.string()`,
`z.boolean()`). -/
inductive ZodType where
  | string
  | boolean
deriving DecidableEq

/-- One field of an input schema: a base type or `.optional()` around it. -/
inductive ZodField where
  | base (t : ZodType)
  | optional (t : ZodType)
deriving DecidableEq

/-- The `_def.typeName` of a zod base type. -/
def zodTypeName : ZodType → String
  | .string => "ZodString"
  | .boolean => "ZodBoolean"

/-- JS `s.replace(pat, rep)` with a string pattern: replace the first
occurrence only.  `matchPat s pat` returns the remainder of `s` after `pat`
when `pat` is a leading piece of `s`. -/
def matchPat : List Char → List Char → Option (List Char)
  | s, [] => some s
  | [], _ :: _ => none
  | c :: s, p :: ps => if c = p then matchPat s ps else none

/-- First-occurrence replacement on character lists. -/
def replaceFirst (pat rep : List Char) : List Char → List Char
  | [] => (match matchPat [] pat with
           | some rest => rep ++ rest
           | none => [])
  | c :: s =>
    match matchPat (c :: s) pat with
    | some rest => rep ++ rest
    | none => c :: replaceFirst pat rep s

/-- JS `s.replace(pat, rep)` (string pattern: first occurrence only). -/
def jsReplaceFirst (s pat rep : String) : String :=
  String.mk (replaceFirst pat.toList rep.toList s.toList)

/-- The parameter summary of one schema field (source lines 156-159):
`typeName.replace("Zod", "").toLowerCase()`, suffixed with
`" (optional)"` for `ZodOptional` wrappers (for an optional field the
typeName is taken from `_def.innerType`). -/
def renderZodField (f : ZodField) : String :=
  let inner := match f with
    | .optional t => zodTypeName t
    | .base t => zodTypeName t
  let typeStr :=
    String.mk ((jsReplaceFirst inner "Zod" "").toList.map Char.toLower)
  match f with
  | .optional _ => typeStr ++ " (optional)"
  | .base _ => typeStr

/-- `zodSchemaToJson` (source lines 150-166) on the schema shapes the
source registers: render every field of the schema object in order. -/
def zodSchemaToJson (schema : List (String × ZodField)) :
    List (String × String) :=
  schema.map (fun kv => (kv.1, renderZodField kv.2))

/-- The validated input object a tool handler destructures; zod guarantees
exactly the declared fields, so the model carries one slot per declared
parameter name across the whole catalog. -/
structure ToolInput where
  domain : String
  liveOnly : Option Bool
  lookup : String
  company : String
  tech : String
  query : String

/-- One `registerJsonTool` declaration: name, description, input schema,
upstream path and the parameter-mapping function (source lines 168-171 and
314-405). -/
structure ToolDecl where
  name : String
  description : String
  schema : List (String × ZodField)
  path : String
  mapper : ToolInput → List (String × JsVal)

/-- The thirteen `registerJsonTool` declarations (source lines 314-405), in
registration order. -/
def jsonToolDecls : List ToolDecl :=
  [⟨"domain-api",
    "Domain API JSON lookup for technology and metadata by domain.",
    [("lookup", .base .string)], "v22/api.json",
    fun input => [("LOOKUP", .str input.lookup)]⟩,
   ⟨"relationships-api",
    "Relationships API JSON lookup for related websites by domain.",
    [("lookup", .base .string)], "rv4/api.json",
    fun input => [("LOOKUP", .str input.lookup)]⟩,
   ⟨"free-api",
    "Free API JSON lookup for category/group counts by domain.",
    [("lookup", .base .string)], "free1/api.json",
    fun input => [("LOOKUP", .str input.lookup)]⟩,
   ⟨"company-to-url",
    "Company to URL API JSON lookup for domains from a company name.",
    [("company", .base .string)], "ctu3/api.json",
    fun input => [("COMPANY", .str input.company)]⟩,
   ⟨"tags-api",
    "Tags API JSON lookup for related domains from IP or attributes.",
    [("lookup", .base .string)], "tag1/api.json",
    fun input => [("LOOKUP", .str input.lookup)]⟩,
   ⟨"recommendations-api",
    "Recommendations API JSON lookup for technology recommendations by domain.",
    [("lookup", .base .string)], "rec1/api.json",
    fun input => [("LOOKUP", .str input.lookup)]⟩,
   ⟨"redirects-api",
    "Redirects API JSON lookup for live and historical redirects by domain.",
    [("lookup", .base .string)], "redirect1/api.json",
    fun input => [("LOOKUP", .str input.lookup)]⟩,
   ⟨"keywords-api",
    "Keywords API JSON lookup for keyword data by domain.",
    [("lookup", .base .string)], "kw2/api.json",
    fun input => [("LOOKUP", .str input.lookup)]⟩,
   ⟨"trends-api",
    "Trends API JSON lookup for technology trend data.",
    [("tech", .base .string)], "trends/v6/api.json",
    fun input => [("TECH", .str input.tech)]⟩,
   ⟨"product-api",
    "Product API JSON lookup for ecommerce product searches.",
    [("query", .base .string)], "productv1/api.json",
    fun input => [("QUERY", .str input.query)]⟩,
   ⟨"trust-api",
    "Trust API JSON lookup for trust scoring by domain.",
    [("lookup", .base .string)], "trustv1/api.json",
    fun input => [("LOOKUP", .str input.lookup)]⟩,
   ⟨"financial-api",
    "Financial API JSON lookup for financial data by domain.",
    [("lookup", .base .string)], "financial1/api.json",
    fun input => [("LOOKUP", .str input.lookup)]⟩,
   ⟨"social-api",
    "Social API JSON lookup for domains related to social profiles.",
    [("lookup", .base .string)], "social1/api.json",
    fun input => [("LOOKUP", .str input.lookup)]⟩]

/-- The `domain-lookup` declaration (source lines 295-312), with the schema
`{ domain: z.string(), liveOnly: z.boolean().optional() }` and the
parameter mapping its handler performs inline. -/
def domainLookupDecl : ToolDecl :=
  ⟨"domain-lookup",
   "Returns the live web technologies used on the root domain name.",
   [("domain", .base .string), ("liveOnly", .optional .boolean)],
   "v22/api.json",
   fun input =>
     [("LOOKUP", .str input.domain),
      ("LIVEONLY", liveOnlyParam input.liveOnly)]⟩

/-- One entry of the discovery catalogs: declared name, description and
rendered parameter summary. -/
structure CatalogEntry where
  name : String
  description : String
  parameters : List (String × String)
deriving DecidableEq

/-- The catalog entry `registerJsonTool` pushes (source line 169). -/
def registerJsonToolEntry (d : ToolDecl) : CatalogEntry :=
  ⟨d.name, d.description, zodSchemaToJson d.schema⟩

/-- The hand-written catalog entry for `domain-lookup` (source lines
289-293). -/
def domainLookupCatalogEntry : CatalogEntry :=
  ⟨"domain-lookup",
   "Returns the live web technologies used on the root domain name.",
   [("domain", "string"), ("liveOnly", "boolean (optional)")]⟩

/-- `toolCatalog` as built by `registerTools` (source lines 288-405):
the `domain-lookup` entry followed by the thirteen `registerJsonTool`
entries, in registration order. -/
def toolCatalog : List CatalogEntry :=
  domainLookupCatalogEntry :: jsonToolDecls.map registerJsonToolEntry

/-- `promptCatalog` as built by `registerPrompts` (source lines 173-200). -/
def promptCatalog : List CatalogEntry :=
  [⟨"analyze-tech-stack", "Analyze the technology stack of a domain",
    [("domain", "string")]⟩,
   ⟨"find-related-websites", "Find websites related to a domain",
    [("domain", "string")]⟩,
   ⟨"get-technology-recommendations",
    "Get technology recommendations for a domain", [("domain", "string")]⟩,
   ⟨"research-company", "Research a company\x27s web presence by name",
    [("company", "string")]⟩,
   ⟨"check-domain-trust", "Check the trust score of a domain",
    [("domain", "string")]⟩]

/-- One registered tool: the name and the dispatch handler bound by
`server.tool`; the handler is given the validated input, the ambient
credential state and the fetch behaviour. -/
structure ToolReg where
  name : String
  handler : ToolInput → Option AlsStore → Option String → String →
    (Url → FetchOutcome) → McpResponse × List Url

/-- The `domain-lookup` registration (source lines 295-312). -/
def domainLookupReg : ToolReg :=
  ⟨"domain-lookup",
   fun input store fallback hostname fetch =>
     domainLookupHandler input.domain input.liveOnly store fallback hostname
       fetch⟩

/-- `registerJsonTool`'s handler (source line 170): `handleBuiltWithJson`
on the declared path and the mapped parameters. -/
def mkJsonToolReg (d : ToolDecl) : ToolReg :=
  ⟨d.name,
   fun input store fallback hostname fetch =>
     handleBuiltWithJson store fallback hostname d.path (d.mapper input)
       fetch⟩

/-- Every tool registration of `registerTools`, in order. -/
def toolRegs : List ToolReg :=
  domainLookupReg :: jsonToolDecls.map mkJsonToolReg

/-- `validateOrigin` (source lines 34-47): `true` when the allowlist is
empty; `true` when the `origin` header is JS-falsy (absent, or present with
the empty value — `if (!origin) return true`); otherwise membership in the
allowlist.  `false` means the 403 "Forbidden origin" rejection was sent. -/
def validateOrigin (allowedOrigins : List String) (origin : Option String) :
    Bool :=
  if allowedOrigins.length = 0 then true
  else
    match origin with
    | none => true
    | some o =>
      if o = "" then true
      else if o ∈ allowedOrigins then true
      else false

/-- JS `\s` (WhiteSpace and LineTerminator) character class used by the
bearer regex and by `String.prototype.trim`. -/
def jsWhitespaceChar (c : Char) : Bool :=
  c.toNat = 9 || c.toNat = 10 || c.toNat = 11 || c.toNat = 12 ||
  c.toNat = 13 || c.toNat = 32 || c.toNat = 160 || c.toNat = 0x1680 ||
  (0x2000 ≤ c.toNat && c.toNat ≤ 0x200a) || c.toNat = 0x2028 ||
  c.toNat = 0x2029 || c.toNat = 0x202f || c.toNat = 0x205f ||
  c.toNat = 0x3000 || c.toNat = 0xfeff

/-- JS LineTerminator characters, which `.` in a regex does not match. -/
def lineTerminatorChar (c : Char) : Bool :=
  c.toNat = 10 || c.toNat = 13 || c.toNat = 0x2028 || c.toNat = 0x2029

/-- `String.prototype.trim()`: strip leading and trailing JS whitespace. -/
def jsTrim (l : List Char) : List Char :=
  ((l.dropWhile jsWhitespaceChar).reverse.dropWhile jsWhitespaceChar).reverse

/-- The capture of `/^Bearer\s+(.+)$/i` after the whitespace run: with the
greedy `\s+` taking the maximal whitespace run `ws`, the capture is the
remainder `body` when it is non-empty and free of line terminators (`.`
matches everything else); when `body` is empty the engine backtracks one
whitespace character into the capture, which succeeds exactly when `ws` has
at least two characters and its last one is not a line terminator.  A line
terminator anywhere in `body` makes every split fail. -/
def bearerRestCapture (rest : List Char) : Option (List Char) :=
  let ws := rest.takeWhile jsWhitespaceChar
  let body := rest.dropWhile jsWhitespaceChar
  if ws = [] then none
  else if body = [] then
    match ws.getLast? with
    | some c =>
      if 2 ≤ ws.length && !lineTerminatorChar c then some [c] else none
    | none => none
  else if body.all (fun c => !lineTerminatorChar c) then some body
  else none

/-- The full match of `/^Bearer\s+(.+)$/i`: a case-insensitive `Bearer`
scheme token followed by whitespace and the capture. -/
def bearerCapture (header : List Char) : Option (List Char) :=
  if (header.take 6).map Char.toLower = "bearer".toList then
    bearerRestCapture (header.drop 6)
  else none

/-- `extractBearerApiKeyOptional` (source lines 49-58): run the bearer
regex over `req.headers.authorization || ""`, trim the captured value, and
return it only when its length is between 10 and 256; every other header
yields `null`, never an error. -/
def extractBearerApiKeyOptional (authorization : Option String) :
    Option String :=
  let header := (match authorization with | some s => s | none => "").toList
  match bearerCapture header with
  | none => none
  | some captured =>
    let apiKey := jsTrim captured
    if apiKey.length < 10 ∨ apiKey.length > 256 then none
    else some (String.mk apiKey)

/-- The JSON document served by `app.get("/mcp")` (source lines 416-426). -/
structure DiscoveryDoc where
  name : String
  version : String
  description : String
  authentication : String
  tools : List CatalogEntry
  prompts : List CatalogEntry
deriving DecidableEq

/-- The discovery document: static metadata plus the full tool and prompt
catalogs. -/
def discoveryDoc : DiscoveryDoc :=
  ⟨"builtwith", "1.2.0",
   "BuiltWith MCP Server â€” technology lookup, trends, trust scores and more. https://api.builtwith.com/mcp is a valid MCP endpoint you are currently accessing it with a GET request.",
   "Pass your BuiltWith API key as Authorization: Bearer <key>",
   toolCatalog, promptCatalog⟩

/-- The HTTP methods the route model distinguishes: `app.get("/mcp")` is
registered before `app.all("/mcp")`, so a GET is answered by the discovery
handler and everything else falls through to the MCP handler. -/
inductive HttpMethod where
  | get
  | post
deriving DecidableEq

/-- An inbound HTTP request on `/mcp`: `none` for a header means the header
is absent.  The body is modelled as an optional MCP tool call (tool name
and validated arguments); `none` covers bodies that address no tool. -/
structure HttpRequest where
  method : HttpMethod
  origin : Option String
  authorization : Option String
  body : Option (String × ToolInput)

/-- The visible outcome of one request to `/mcp`. -/
inductive HttpResponse where
  | forbiddenOrigin
  | discovery (doc : DiscoveryDoc)
  | toolResult (r : McpResponse)
  | noToolCall

/-- Dispatch of the MCP body against the registered tools (the SDK routes a
`tools/call` to the handler bound by `server.tool`). -/
def dispatchToolCall (store : Option AlsStore) (fallback : Option String)
    (hostname : String) (fetch : Url → FetchOutcome) :
    Option (String × ToolInput) → HttpResponse × List Url
  | none => (.noToolCall, [])
  | some (name, input) =>
    match toolRegs.find? (fun r => r.name = name) with
    | some r =>
      let res := r.handler input store fallback hostname fetch
      (.toolResult res.1, res.2)
    | none => (.noToolCall, [])

/-- `app.all("/mcp")` (source lines 428-451): reject when `validateOrigin`
failed, otherwise extract the optional bearer key, bind it in a fresh
AsyncLocalStorage scope (`als.run({ apiKey }, ...)`) and serve the MCP
request inside that scope. -/
def handleMcpAll (allowedOrigins : List String) (fallback : Option String)
    (hostname : String) (req : HttpRequest) (fetch : Url → FetchOutcome) :
    HttpResponse × List Url :=
  if validateOrigin allowedOrigins req.origin = false then
    (.forbiddenOrigin, [])
  else
    let apiKey := extractBearerApiKeyOptional req.authorization
    dispatchToolCall (some ⟨apiKey⟩) fallback hostname fetch req.body

/-- The `/mcp` route table of `startHttp`: the GET discovery handler
answers first, every other method reaches `app.all`. -/
def routeMcp (allowedOrigins : List String) (fallback : Option String)
    (hostname : String) (req : HttpRequest) (fetch : Url → FetchOutcome) :
    HttpResponse × List Url :=
  match req.method with
  | .get => (.discovery discoveryDoc, [])
  | .post => handleMcpAll allowedOrigins fallback hostname req fetch

/-!
Cooperative-interleaving model of concurrent per-request invocations
(spec §5: single-threaded, cooperatively scheduled, suspension at the
network call).  Each task is one `als.run({ apiKey }, ...)` scope; per the
semantics of `AsyncLocalStorage`, `als.getStore()` inside a scope returns
that scope's store through every asynchronous continuation, so the store is
task-local state, while the fallback `BUILTWITH_API_KEY` is shared
read-only configuration.  A task runs the credential-relevant steps of
`requestBuiltWithJson`: step 0 resolves the key (`getCurrentApiKey`), step
1 performs the outbound call with the resolved key (or stops with the
missing-key failure and no call).  A schedule is an arbitrary list of task
indices, covering every interleaving of the steps.
-/

/-- One in-flight per-request invocation: its AsyncLocalStorage store, a
program counter over the steps of `requestBuiltWithJson`, and the resolved
key register. -/
structure CTask where
  store : Option AlsStore
  pc : Nat
  reg : Option String
deriving DecidableEq

/-- An outbound network call observed in a trace: which task performed it
and which credential its `KEY` parameter carried. -/
structure CEvent where
  tid : Nat
  key : Option String
deriving DecidableEq

/-- A freshly admitted HTTP request with extracted bearer key `apiKey`,
about to run `als.run({ apiKey }, ...)` (source line 433). -/
def mkRequestTask (apiKey : Option String) : CTask :=
  ⟨some ⟨apiKey⟩, 0, none⟩

/-- One atomic step of a task: resolve the credential from the task's own
store (source lines 60-64, 67), then either emit the outbound call carrying
it or stop without a call (source lines 68-83). -/
def taskStep (fallback : Option String) (t : CTask) :
    CTask × Option (Option String) :=
  match t.pc with
  | 0 => (⟨t.store, 1, getCurrentApiKey t.store fallback⟩, none)
  | 1 =>
    if truthyStr t.reg then (⟨t.store, 2, t.reg⟩, some t.reg)
    else (⟨t.store, 2, t.reg⟩, none)
  | _ => (t, none)

/-- Step the scheduled task (a no-op for an index with no task). -/
def sysStep (fallback : Option String) (tasks : List CTask) (i : Nat) :
    List CTask × Option CEvent :=
  match tasks[i]? with
  | none => (tasks, none)
  | some t =>
    (tasks.set i (taskStep fallback t).1,
     (taskStep fallback t).2.map (fun k => ⟨i, k⟩))

/-- Run a schedule (an arbitrary interleaving) over the tasks, collecting
the outbound-call events in order. -/
def runSched (fallback : Option String) :
    List Nat → List CTask → List CTask × List CEvent
  | [], tasks => (tasks, [])
  | i :: rest, tasks =>
    ((runSched fallback rest (sysStep fallback tasks i).1).1,
     (sysStep fallback tasks i).2.toList ++
       (runSched fallback rest (sysStep fallback tasks i).1).2)

/-- The per-task invariant tying a task to its invocation's store
assignment `σ`: the store never changes, and once past step 0 the register
holds exactly the credential resolved from the task's own store. -/
def taskInv (fallback : Option String) (σ : Nat → Option AlsStore) (i : Nat)
    (t : CTask) : Prop :=
  t.store = σ i ∧ (t.pc ≠ 0 → t.reg = getCurrentApiKey (σ i) fallback)

/-- The system invariant: every live task satisfies its invariant. -/
def sysInv (fallback : Option String) (σ : Nat → Option AlsStore)
    (tasks : List CTask) : Prop :=
  ∀ i t, tasks[i]? = some t → taskInv fallback σ i t

theorem taskStep_inv (fallback : Option String) (σ : Nat → Option AlsStore)
    (i : Nat) (t : CTask) (ht : taskInv fallback σ i t) :
    taskInv fallback σ i (taskStep fallback t).1 ∧
    ∀ k, (taskStep fallback t).2 = some k →
      k = getCurrentApiKey (σ i) fallback := by
  rcases ht with ⟨hs, hr⟩
  rcases hpc : t.pc with _ | (_ | m)
  · refine ⟨⟨by simpa [taskStep, hpc] using hs, ?_⟩, ?_⟩
    · intro _
      simp [taskStep, hpc, hs]
    · intro k hk
      simp [taskStep, hpc] at hk
  · by_cases htr : truthyStr t.reg
    · refine ⟨⟨by simpa [taskStep, hpc, htr] using hs, ?_⟩, ?_⟩
      · intro _
        simpa [taskStep, hpc, htr] using hr (by simp [hpc])
      · intro k hk
        have hk2 : k = t.reg := by simpa [taskStep, hpc, htr] using hk.symm
        subst hk2
        exact hr (by simp [hpc])
    · refine ⟨⟨by simpa [taskStep, hpc, htr] using hs, ?_⟩, ?_⟩
      · intro _
        simpa [taskStep, hpc, htr] using hr (by simp [hpc])
      · intro k hk
        simp [taskStep, hpc, htr] at hk
  · refine ⟨⟨by simpa [taskStep, hpc] using hs, ?_⟩, ?_⟩
    · intro _
      simpa [taskStep, hpc] using hr (by simp [hpc])
    · intro k hk
      simp [taskStep, hpc] at hk

theorem sysStep_inv (fallback : Option String) (σ : Nat → Option AlsStore)
    (tasks : List CTask) (i : Nat) (h : sysInv fallback σ tasks) :
    sysInv fallback σ (sysStep fallback tasks i).1 ∧
    ∀ ev, (sysStep fallback tasks i).2 = some ev →
      ev.key = getCurrentApiKey (σ ev.tid) fallback := by
  rcases hg : tasks[i]? with _ | t
  · have he : sysStep fallback tasks i = (tasks, none) := by
      simp [sysStep, hg]
    rw [he]
    refine ⟨h, ?_⟩
    intro ev hev
    simp at hev
  · have he : sysStep fallback tasks i =
        (tasks.set i (taskStep fallback t).1,
         (taskStep fallback t).2.map (fun k => CEvent.mk i k)) := by
      simp [sysStep, hg]
    have hti := taskStep_inv fallback σ i t (h i t hg)
    rw [he]
    constructor
    · intro j u hj
      dsimp only at hj
      by_cases hij : i = j
      · subst hij
        have hlen : i < tasks.length := (List.getElem?_eq_some.mp hg).1
        rw [List.getElem?_set_eq_of_lt _ hlen] at hj
        cases hj
        exact hti.1
      · rw [List.getElem?_set_ne hij] at hj
        exact h j u hj
    · intro ev hev
      dsimp only at hev
      rcases hk : (taskStep fallback t).2 with _ | k
      · rw [hk] at hev
        simp at hev
      · rw [hk] at hev
        have hev2 : ev = CEvent.mk i k := by simpa using hev.symm
        subst hev2
        simpa using hti.2 k hk

theorem runSched_events (fallback : Option String)
    (σ : Nat → Option AlsStore) (sched : List Nat) (tasks : List CTask)
    (hinv : sysInv fallback σ tasks) :
    ∀ ev ∈ (runSched fallback sched tasks).2,
      ev.key = getCurrentApiKey (σ ev.tid) fallback := by
  induction sched generalizing tasks with
  | nil =>
    intro ev hev
    simp [runSched] at hev
  | cons i rest ih =>
    intro ev hev
    have hstep := sysStep_inv fallback σ tasks i hinv
    simp only [runSched, List.mem_append] at hev
    rcases hev with hev | hev
    · rcases hx : (sysStep fallback tasks i).2 with _ | ev0
      · rw [hx] at hev
        simp at hev
      · rw [hx] at hev
        have hev2 : ev = ev0 := by simpa using hev
        subst hev2
        exact hstep.2 ev hx
    · exact ih (sysStep fallback tasks i).1 hstep.1 ev hev

/-!  Theorems settling the claims. -/

theorem validateOrigin_none (allowedOrigins : List String) :
    validateOrigin allowedOrigins none = true := by
  unfold validateOrigin
  split <;> rfl

theorem validateOrigin_empty (allowedOrigins : List String) :
    validateOrigin allowedOrigins (some "") = true := by
  unfold validateOrigin
  split <;> rfl

/-- C5 counterexample input: one path whose `Technologies` array holds a
JSON `null` followed by one technology object — two technology entries. -/
def c5Data : Json :=
  .obj [("Results", .arr [.obj [("Result",
    .obj [("Paths", .arr [.obj [("Technologies",
      .arr [.null, .obj [("Name", .str "WordPress")]])]])])]])]

/-- C5 counterexample: the response holds `N = 2` technology entries, but
the normalizer emits only one flattened record — the `null` entry is
skipped by `if (!tech) continue`, so the output length is not `N`. -/
theorem C5_counterexample :
    (allTechEntries c5Data).length = 2 ∧
    (extractTechnologies c5Data).length ≠ 2 ∧
    (extractTechnologies c5Data).length = 1 := by
  refine ⟨rfl, ?_, rfl⟩
  decide

/-- C5 (amended): the normalizer emits exactly one flattened
`{Name, Description, Tag, Link}` record per JS-truthy technology entry of
`Results[0].Result.Paths[*].Technologies[*]`, in the original order, each
field defaulted via `field || ""`; falsy entries (such as JSON `null`) are
skipped. -/
theorem C5_normalizer_flattening (data : Json) :
    extractTechnologies data =
      ((allTechEntries data).filter jsTruthy).map mkTechRecord ∧
    (extractTechnologies data).length =
      ((allTechEntries data).filter jsTruthy).length := by
  have hmain : extractTechnologies data =
      ((allTechEntries data).filter jsTruthy).map mkTechRecord := by
    unfold extractTechnologies allTechEntries
    rcases hp : pathsOf data with _ | j
    · rfl
    · cases j with
      | arr paths => exact extractFromPaths_eq paths
      | null => rfl
      | bool b => rfl
      | num n => rfl
      | str s => rfl
      | obj fields => rfl
  exact ⟨hmain, by rw [hmain, List.length_map]⟩

/-- C3 counterexample: the authorization header `"Bearer abcdefghij "`
carries the post-prefix value `"abcdefghij "` of length 11 (inside
10..256), yet extraction returns the trimmed `"abcdefghij"`, not the
post-prefix value. -/
theorem C3_counterexample :
    ("abcdefghij " : String).length = 11 ∧
    extractBearerApiKeyOptional (some "Bearer abcdefghij ") =
      some "abcdefghij" ∧
    ("abcdefghij" : String) ≠ "abcdefghij " := by
  refine ⟨rfl, ?_, ?_⟩ <;> decide

/-- Claim-side specification of bearer extraction, written from the amended
claim's words: the extracted credential is present exactly when the
authorization header starts with the case-insensitive bearer scheme
followed by at least one whitespace character, the remainder after the
leading whitespace run is non-empty and free of line terminators, and that
remainder trimmed of trailing whitespace has length 10 to 256; the
credential is then that trimmed remainder (the post-prefix value with its
surrounding whitespace trimmed).  Every other header — missing, malformed
scheme, whitespace-only remainder, a line terminator after the whitespace
run, trimmed value too short or too long — yields absent, never an
error. -/
def bearerExtractionSpec (authorization : Option String) : Option String :=
  match authorization with
  | none => none
  | some s =>
    let scheme := s.toList.take 6
    let rest := s.toList.drop 6
    let value := rest.dropWhile jsWhitespaceChar
    let trimmed := (value.reverse.dropWhile jsWhitespaceChar).reverse
    if scheme.map Char.toLower = "bearer".toList ∧
        rest.takeWhile jsWhitespaceChar ≠ [] ∧
        value ≠ [] ∧
        value.all (fun c => !lineTerminatorChar c) ∧
        10 ≤ trimmed.length ∧ trimmed.length ≤ 256 then
      some (String.mk trimmed)
    else none

/-- C3 (amended): on every authorization header — present or missing,
well-formed or not — the source extractor agrees with the claim-side
specification: it returns the whitespace-trimmed post-prefix value exactly
when the header carries the case-insensitive bearer scheme, at least one
whitespace character, a non-empty line-terminator-free remainder and a
trimmed length of 10 to 256, and returns absent, never an error, on every
other header. -/
theorem C3_bearer_extraction (authorization : Option String) :
    extractBearerApiKeyOptional authorization =
      bearerExtractionSpec authorization := by
  rcases authorization with _ | s
  · rfl
  · unfold extractBearerApiKeyOptional bearerExtractionSpec bearerCapture
      bearerRestCapture
    dsimp only
    by_cases h6 : (s.toList.take 6).map Char.toLower = "bearer".toList
    case neg =>
      rw [if_neg h6, if_neg (fun hcon => h6 hcon.1)]
    case pos =>
      rw [if_pos h6]
      by_cases hws : (s.toList.drop 6).takeWhile jsWhitespaceChar = []
      case pos =>
        rw [if_pos hws, if_neg (fun hcon => hcon.2.1 hws)]
      case neg =>
        rw [if_neg hws]
        by_cases hv : (s.toList.drop 6).dropWhile jsWhitespaceChar = []
        case pos =>
          rw [if_pos hv, if_neg (fun hcon => hcon.2.2.1 hv)]
          rcases hlast : ((s.toList.drop 6).takeWhile
              jsWhitespaceChar).getLast? with _ | c
          · rfl
          · dsimp only
            by_cases hbt : (2 ≤ ((s.toList.drop 6).takeWhile
                jsWhitespaceChar).length && !lineTerminatorChar c) = true
            · rw [if_pos hbt]
              have hcws : jsWhitespaceChar c = true :=
                List.mem_takeWhile_imp (List.mem_of_mem_getLast? hlast)
              have htr : jsTrim [c] = [] := by
                unfold jsTrim
                rw [List.dropWhile_cons_of_pos hcws]
                rfl
              dsimp only
              rw [htr, if_pos (Or.inl (by decide))]
            · rw [if_neg hbt]
        case neg =>
          rw [if_neg hv]
          by_cases hdot : ((s.toList.drop 6).dropWhile
              jsWhitespaceChar).all (fun c => !lineTerminatorChar c) = true
          case neg =>
            rw [if_neg hdot, if_neg (fun hcon => hdot hcon.2.2.2.1)]
          case pos =>
            rw [if_pos hdot]
            dsimp only
            have htr : jsTrim ((s.toList.drop 6).dropWhile
                jsWhitespaceChar) =
                (((s.toList.drop 6).dropWhile
                  jsWhitespaceChar).reverse.dropWhile
                    jsWhitespaceChar).reverse := by
              unfold jsTrim
              rw [List.dropWhile_idempotent jsWhitespaceChar
                (s.toList.drop 6)]
            rw [htr]
            by_cases hlen : 10 ≤ ((((s.toList.drop 6).dropWhile
                  jsWhitespaceChar).reverse.dropWhile
                    jsWhitespaceChar).reverse).length ∧
                ((((s.toList.drop 6).dropWhile
                  jsWhitespaceChar).reverse.dropWhile
                    jsWhitespaceChar).reverse).length ≤ 256
            · rw [if_neg (by omega),
                if_pos ⟨h6, hws, hv, hdot, hlen.1, hlen.2⟩]
            · rw [if_pos (by omega), if_neg (fun hcon => hlen hcon.2.2.2.2)]

/-- C4 counterexample: with a non-empty allowlist, a request whose origin
header is present with the empty value is admitted (`if (!origin) return
true` treats `""` like an absent header), although that origin is not in
the allowlist (the allowlist never contains `""`, since the configuration
is `.filter(Boolean)`-ed); the route serves it instead of rejecting. -/
theorem C4_counterexample :
    validateOrigin ["https://allowed.example"] (some "") = true ∧
    ["https://allowed.example"] ≠ ([] : List String) ∧
    "" ∉ ["https://allowed.example"] ∧
    routeMcp ["https://allowed.example"] none "api.builtwith.com"
        ⟨.post, some "", none, none⟩ (fun _ => .netError "") =
      (.noToolCall, []) ∧
    HttpResponse.noToolCall ≠ HttpResponse.forbiddenOrigin := by
  refine ⟨rfl, by decide, by decide, rfl, ?_⟩
  intro h
  exact HttpResponse.noConfusion h

/-- C4 (amended): if the allowlist is non-empty and the request's origin
header is present with a non-empty value outside the allowlist, the
request is rejected at the transport boundary with no dispatch and no
outbound call; a request whose origin header is absent, or present with
the empty value, passes the origin check under every allowlist and is
processed identically whatever the allowlist holds. -/
theorem C4_origin_rejection (allowedOrigins : List String)
    (fallback : Option String) (hostname : String) (req : HttpRequest)
    (fetch : Url → FetchOutcome) (o : String) (hne : allowedOrigins ≠ [])
    (ho : req.origin = some o) (hoe : o ≠ "")
    (hmem : o ∉ allowedOrigins) :
    (handleMcpAll allowedOrigins fallback hostname req fetch =
        (.forbiddenOrigin, []) ∧
      validateOrigin allowedOrigins req.origin = false) ∧
    (∀ a : List String, validateOrigin a none = true ∧
      validateOrigin a (some "") = true) ∧
    (∀ o2 : Option String, o2 = none ∨ o2 = some "" →
      ∀ a1 a2 : List String, ∀ fallback2 : Option String,
      ∀ hostname2 : String, ∀ auth : Option String,
      ∀ body : Option (String × ToolInput), ∀ fetch2 : Url → FetchOutcome,
      handleMcpAll a1 fallback2 hostname2 ⟨.post, o2, auth, body⟩ fetch2 =
        handleMcpAll a2 fallback2 hostname2 ⟨.post, o2, auth, body⟩
          fetch2) := by
  have hv : validateOrigin allowedOrigins (some o) = false := by
    unfold validateOrigin
    rw [if_neg (by simpa [List.length_eq_zero] using hne)]
    simp [hoe, hmem]
  refine ⟨⟨?_, by rw [ho, hv]⟩,
    fun a => ⟨validateOrigin_none a, validateOrigin_empty a⟩, ?_⟩
  · unfold handleMcpAll
    rw [ho, hv]
    rfl
  · intro o2 ho2 a1 a2 fallback2 hostname2 auth body fetch2
    unfold handleMcpAll
    rcases ho2 with rfl | rfl
    · rw [validateOrigin_none a1, validateOrigin_none a2]
    · rw [validateOrigin_empty a1, validateOrigin_empty a2]

/-- C4 witness: a request from an origin outside the non-empty allowlist
is rejected with no outbound call, and a request with an empty-valued
origin header is processed identically under a non-empty and an empty
allowlist. -/
theorem C4_origin_rejection_witness :
    handleMcpAll ["https://allowed.example"] none "api.builtwith.com"
        ⟨.post, some "https://evil.example", none, none⟩
        (fun _ => .netError "") =
      (.forbiddenOrigin, []) ∧
    handleMcpAll ["https://allowed.example"] none "api.builtwith.com"
        ⟨.post, some "", none, none⟩ (fun _ => .netError "") =
      handleMcpAll [] none "api.builtwith.com"
        ⟨.post, some "", none, none⟩ (fun _ => .netError "") :=
  ⟨((C4_origin_rejection ["https://allowed.example"] none
      "api.builtwith.com"
      ⟨.post, some "https://evil.example", none, none⟩
      (fun _ => .netError "") "https://evil.example" (by decide) rfl
      (by decide) (by decide)).1).1,
   (C4_origin_rejection ["https://allowed.example"] none "api.builtwith.com"
      ⟨.post, some "https://evil.example", none, none⟩
      (fun _ => .netError "") "https://evil.example" (by decide) rfl
      (by decide) (by decide)).2.2 (some "") (Or.inr rfl)
      ["https://allowed.example"] [] none "api.builtwith.com" none none
      (fun _ => .netError "")⟩

/-- C10: a GET on the MCP endpoint is answered by the discovery handler
registered ahead of `app.all`, with no origin check: the response is the
static catalog document for every origin header, so any two GET discovery
requests differing only in origin receive identical responses, whatever
the allowlist holds. -/
theorem C10_discovery_ignores_origin (allowedOrigins : List String)
    (fallback : Option String) (hostname : String) (o1 o2 : Option String)
    (auth : Option String) (body : Option (String × ToolInput))
    (fetch : Url → FetchOutcome) :
    routeMcp allowedOrigins fallback hostname ⟨.get, o1, auth, body⟩ fetch =
      (.discovery discoveryDoc, []) ∧
    routeMcp allowedOrigins fallback hostname ⟨.get, o1, auth, body⟩ fetch =
      routeMcp allowedOrigins fallback hostname ⟨.get, o2, auth, body⟩
        fetch :=
  ⟨rfl, rfl⟩

theorem requestBuiltWithJson_missing (store : Option AlsStore)
    (fallback : Option String) (hostname path : String)
    (params : List (String × JsVal)) (fetch : Url → FetchOutcome)
    (hkey : truthyStr (getCurrentApiKey store fallback) = false) :
    requestBuiltWithJson store fallback hostname path params fetch =
      (.failed missingKeyError, []) := by
  rcases hk : getCurrentApiKey store fallback with _ | k
  · unfold requestBuiltWithJson
    rw [hk]
  · rw [hk] at hkey
    have hke : k = "" := by simpa [truthyStr] using hkey
    subst hke
    unfold requestBuiltWithJson
    rw [hk]
    rfl

/-- C2: under a scope with no resolvable credential (no truthy per-request
key and no truthy fallback), every registered tool's handler returns the
missing-key failure payload and performs no outbound network call. -/
theorem C2_auth_missing_no_network (reg : ToolReg) (hreg : reg ∈ toolRegs)
    (input : ToolInput) (store : Option AlsStore) (fallback : Option String)
    (hostname : String) (fetch : Url → FetchOutcome)
    (hkey : truthyStr (getCurrentApiKey store fallback) = false) :
    reg.handler input store fallback hostname fetch =
      (buildResponse missingKeyError, []) := by
  have hjson : ∀ path : String, ∀ params : List (String × JsVal),
      handleBuiltWithJson store fallback hostname path params fetch =
        (buildResponse missingKeyError, []) := by
    intro path params
    unfold handleBuiltWithJson
    rw [requestBuiltWithJson_missing store fallback hostname path params
      fetch hkey]
  have hdl : ∀ d : String, ∀ lo : Option Bool,
      domainLookupHandler d lo store fallback hostname fetch =
        (buildResponse missingKeyError, []) := by
    intro d lo
    unfold domainLookupHandler
    dsimp only
    rw [requestBuiltWithJson_missing store fallback hostname "v22/api.json"
      _ fetch hkey]
  rcases List.mem_cons.mp hreg with h1 | h2
  · subst h1
    exact hdl input.domain input.liveOnly
  · obtain ⟨d, hd, he⟩ := List.mem_map.mp h2
    subst he
    exact hjson d.path (d.mapper input)

/-- C2 witness: with no per-request key and no fallback, `domain-lookup`
fails with the missing-key payload and performs no network call. -/
theorem C2_auth_missing_no_network_witness :
    domainLookupReg.handler ⟨"example.com", none, "", "", "", ""⟩ none none
        "api.builtwith.com" (fun _ => .netError "") =
      (buildResponse missingKeyError, []) :=
  C2_auth_missing_no_network domainLookupReg (List.mem_cons_self _ _)
    ⟨"example.com", none, "", "", "", ""⟩ none none "api.builtwith.com"
    (fun _ => .netError "") (by decide)

/-- C6: when the upstream call succeeds with a body whose flattened
technology list is empty, `domain-lookup` answers with the explicit
"no technologies found" marker object — not an empty array and not a
failure path; and whenever `Paths` is absent, empty, or not a list, the
flattened list is indeed empty. -/
theorem C6_no_tech_marker (domain : String) (liveOnly : Option Bool)
    (store : Option AlsStore) (fallback : Option String) (hostname : String)
    (data : Json) (fetch : Url → FetchOutcome) (apiKey : String)
    (hfetch : ∀ u, fetch u = .success data)
    (hk : getCurrentApiKey store fallback = some apiKey) (hne : apiKey ≠ "")
    (hempty : extractTechnologies data = []) :
    (domainLookupHandler domain liveOnly store fallback hostname fetch).1 =
      buildResponse noTechnologiesError ∧
    noTechnologiesError ≠ .arr ([] : List Json) ∧
    (∀ d : Json, (∀ l : List Json, pathsOf d = some (.arr l) → l = []) →
      extractTechnologies d = []) := by
  refine ⟨?_, by intro h; exact Json.noConfusion h, ?_⟩
  · have hreq : requestBuiltWithJson store fallback hostname "v22/api.json"
        [("LOOKUP", JsVal.str domain),
         ("LIVEONLY", liveOnlyParam liveOnly)] fetch =
        (.ok data,
         [buildUrl hostname "v22/api.json" apiKey
           [("LOOKUP", JsVal.str domain),
            ("LIVEONLY", liveOnlyParam liveOnly)]]) := by
      unfold requestBuiltWithJson
      rw [hk]
      dsimp only
      rw [if_neg hne, hfetch]
    unfold domainLookupHandler
    dsimp only
    rw [hreq]
    simp [hempty]
  · intro d hd
    unfold extractTechnologies
    rcases hp : pathsOf d with _ | j
    · rfl
    · cases j with
      | arr l =>
        have he := hd l hp
        subst he
        rfl
      | null => rfl
      | bool b => rfl
      | num n => rfl
      | str s => rfl
      | obj fields => rfl

/-- C6 witness: an upstream body with no `Paths` yields the marker. -/
theorem C6_no_tech_marker_witness :
    (domainLookupHandler "example.com" none (some ⟨some "0123456789"⟩) none
        "api.builtwith.com" (fun _ => .success (.obj []))).1 =
      buildResponse noTechnologiesError :=
  (C6_no_tech_marker "example.com" none (some ⟨some "0123456789"⟩) none
    "api.builtwith.com" (.obj []) (fun _ => .success (.obj []))
    "0123456789" (fun _ => rfl) rfl (by decide) rfl).1

theorem setParam_not_mem (q : List (String × String)) (k v : String)
    (h : k ∉ q.map Prod.fst) :
    setParam q k v = q ++ [(k, v)] := by
  induction q with
  | nil => rfl
  | cons kv rest ih =>
    simp only [List.map_cons, List.mem_cons, not_or] at h
    simp only [setParam]
    rw [if_neg (fun he => h.1 he.symm), ih h.2, List.cons_append]

theorem foldl_setParam (params : List (String × JsVal))
    (q : List (String × String))
    (hdisj : ∀ p ∈ params, p.1 ∉ q.map Prod.fst)
    (hnd : (params.map Prod.fst).Nodup) :
    params.foldl (fun acc kv =>
        if sendableParam kv.2 then setParam acc kv.1 (jsValString kv.2)
        else acc) q =
      q ++ (params.filter (fun kv => sendableParam kv.2)).map
        (fun kv => (kv.1, jsValString kv.2)) := by
  induction params generalizing q with
  | nil => simp
  | cons kv rest ih =>
    simp only [List.map_cons, List.nodup_cons] at hnd
    rw [List.foldl_cons]
    by_cases hs : sendableParam kv.2
    · rw [if_pos hs,
        setParam_not_mem q kv.1 (jsValString kv.2)
          (hdisj kv (List.mem_cons_self _ _))]
      rw [ih (q ++ [(kv.1, jsValString kv.2)]) ?_ hnd.2]
      · have hf : List.filter (fun kv => sendableParam kv.2) (kv :: rest) =
            kv :: List.filter (fun kv => sendableParam kv.2) rest := by
          simp [List.filter_cons, hs]
        rw [hf, List.map_cons, List.append_assoc, List.singleton_append]
      · intro p hp
        simp only [List.map_append, List.map_cons, List.map_nil,
          List.mem_append, List.mem_singleton, not_or]
        refine ⟨hdisj p (List.mem_cons_of_mem _ hp), ?_⟩
        intro he
        exact hnd.1 (he ▸ List.mem_map_of_mem Prod.fst hp)
    · have hf : List.filter (fun kv => sendableParam kv.2) (kv :: rest) =
          List.filter (fun kv => sendableParam kv.2) rest := by
        simp [List.filter_cons, hs]
      rw [if_neg hs,
        ih q (fun p hp => hdisj p (List.mem_cons_of_mem _ hp)) hnd.2, hf]

/-- C7: with a resolvable credential, the constructed URL targets
`https://{hostname}/{path}` and its query carries the credential parameter
`KEY` followed by exactly the sendable entries of `params`, in order:
`undefined`/`null` values and values stringifying to `""` are omitted,
never sent as empty strings.  (The hypotheses hold for every call the
registered tools make: each mapper emits distinct uppercase keys and never
`KEY`.) -/
theorem buildUrl_query (hostname path apiKey : String)
    (params : List (String × JsVal))
    (hnd : (params.map Prod.fst).Nodup)
    (hkey : "KEY" ∉ params.map Prod.fst) :
    buildUrl hostname path apiKey params =
      ⟨hostname, path,
       ("KEY", apiKey) ::
         (params.filter (fun kv => sendableParam kv.2)).map
           (fun kv => (kv.1, jsValString kv.2))⟩ := by
  unfold buildUrl
  dsimp only
  rw [show setParam [] "KEY" apiKey = [("KEY", apiKey)] from rfl]
  rw [foldl_setParam params [("KEY", apiKey)] ?_ hnd]
  · rw [List.singleton_append]
  · intro p hp
    simp only [List.map_cons, List.map_nil, List.mem_singleton]
    intro he
    exact hkey (he ▸ List.mem_map_of_mem Prod.fst hp)

/-- C7 restated on the helper: the full characterization of the
constructed URL. -/
theorem C7_url_construction (hostname path apiKey : String)
    (params : List (String × JsVal))
    (hnd : (params.map Prod.fst).Nodup)
    (hkey : "KEY" ∉ params.map Prod.fst) :
    buildUrl hostname path apiKey params =
      ⟨hostname, path,
       ("KEY", apiKey) ::
         (params.filter (fun kv => sendableParam kv.2)).map
           (fun kv => (kv.1, jsValString kv.2))⟩ :=
  buildUrl_query hostname path apiKey params hnd hkey

/-- C7 witness: a `domain-lookup`-shaped parameter list with an omitted
`undefined` entry. -/
theorem C7_url_construction_witness :
    buildUrl "api.builtwith.com" "v22/api.json" "0123456789"
        [("LOOKUP", JsVal.str "example.com"), ("LIVEONLY", JsVal.undef)] =
      ⟨"api.builtwith.com", "v22/api.json",
       [("KEY", "0123456789"), ("LOOKUP", "example.com")]⟩ := by
  rw [C7_url_construction "api.builtwith.com" "v22/api.json" "0123456789"
    [("LOOKUP", JsVal.str "example.com"), ("LIVEONLY", JsVal.undef)]
    (by decide) (by decide)]
  rfl

theorem domainLookupHandler_events (domain : String)
    (liveOnly : Option Bool) (store : Option AlsStore)
    (fallback : Option String) (hostname : String)
    (fetch : Url → FetchOutcome) :
    (domainLookupHandler domain liveOnly store fallback hostname fetch).2 =
      (requestBuiltWithJson store fallback hostname "v22/api.json"
        [("LOOKUP", JsVal.str domain),
         ("LIVEONLY", liveOnlyParam liveOnly)] fetch).2 := by
  unfold domainLookupHandler
  dsimp only
  split
  · rfl
  · split <;> rfl

/-- C9: with a resolvable credential, every `domain-lookup` invocation
performs exactly one upstream call; its query omits `LIVEONLY` when the
input's `liveOnly` is exactly `false`, and carries `LIVEONLY=yes` in every
other case — in particular when `liveOnly` is absent. -/
theorem C9_liveonly_param (domain : String) (liveOnly : Option Bool)
    (store : Option AlsStore) (fallback : Option String) (hostname : String)
    (fetch : Url → FetchOutcome) (apiKey : String)
    (hk : getCurrentApiKey store fallback = some apiKey)
    (hne : apiKey ≠ "") :
    ∃ u : Url,
      (domainLookupHandler domain liveOnly store fallback hostname
        fetch).2 = [u] ∧
      (liveOnly = some false → "LIVEONLY" ∉ u.query.map Prod.fst) ∧
      (liveOnly ≠ some false → ("LIVEONLY", "yes") ∈ u.query) := by
  refine ⟨buildUrl hostname "v22/api.json" apiKey
    [("LOOKUP", JsVal.str domain),
     ("LIVEONLY", liveOnlyParam liveOnly)], ?_, ?_, ?_⟩
  · have hsnd2 : (requestBuiltWithJson store fallback hostname "v22/api.json"
        [("LOOKUP", JsVal.str domain),
         ("LIVEONLY", liveOnlyParam liveOnly)] fetch).2 =
        [buildUrl hostname "v22/api.json" apiKey
          [("LOOKUP", JsVal.str domain),
           ("LIVEONLY", liveOnlyParam liveOnly)]] := by
      unfold requestBuiltWithJson
      rw [hk]
      dsimp only
      rw [if_neg hne]
      split <;> rfl
    rw [domainLookupHandler_events domain liveOnly store fallback hostname
      fetch, hsnd2]
  · intro hl
    subst hl
    rw [buildUrl_query hostname "v22/api.json" apiKey
      [("LOOKUP", JsVal.str domain),
       ("LIVEONLY", liveOnlyParam (some false))]
      (show (["LOOKUP", "LIVEONLY"] : List String).Nodup by decide)
      (show "KEY" ∉ (["LOOKUP", "LIVEONLY"] : List String) by decide)]
    intro hmem
    simp only [List.map_cons, List.mem_cons] at hmem
    rcases hmem with h1 | h2
    · exact absurd h1 (by decide)
    · rw [List.map_map] at h2
      obtain ⟨kv, hkv, hfst⟩ := List.mem_map.mp h2
      have hkvP := List.mem_of_mem_filter hkv
      have hsend := (List.mem_filter.mp hkv).2
      simp only [List.mem_cons, List.mem_singleton, List.not_mem_nil,
        or_false] at hkvP
      rcases hkvP with rfl | rfl
      · exact absurd hfst (show ("LOOKUP" : String) ≠ "LIVEONLY" by decide)
      · exact absurd hsend (by decide)
  · intro hl
    have hP : (liveOnlyParam liveOnly) = JsVal.str "yes" := by
      rcases liveOnly with _ | b
      · rfl
      · cases b
        · exact absurd rfl hl
        · rfl
    rw [hP, buildUrl_query hostname "v22/api.json" apiKey
      [("LOOKUP", JsVal.str domain), ("LIVEONLY", JsVal.str "yes")]
      (show (["LOOKUP", "LIVEONLY"] : List String).Nodup by decide)
      (show "KEY" ∉ (["LOOKUP", "LIVEONLY"] : List String) by decide)]
    refine List.mem_cons_of_mem _ ?_
    have hmemf : ("LIVEONLY", JsVal.str "yes") ∈
        List.filter (fun kv => sendableParam kv.2)
          [("LOOKUP", JsVal.str domain), ("LIVEONLY", JsVal.str "yes")] :=
      List.mem_filter.mpr ⟨by simp, by decide⟩
    exact List.mem_map_of_mem _ hmemf

/-- C9 witness: with `liveOnly = some false` the single upstream call
omits `LIVEONLY`. -/
theorem C9_liveonly_param_witness :
    ∃ u : Url,
      (domainLookupHandler "example.com" (some false)
        (some ⟨some "0123456789"⟩) none "api.builtwith.com"
        (fun _ => .success (.obj []))).2 = [u] ∧
      (some false = some false → "LIVEONLY" ∉ u.query.map Prod.fst) ∧
      (some false ≠ some false → ("LIVEONLY", "yes") ∈ u.query) :=
  C9_liveonly_param "example.com" (some false) (some ⟨some "0123456789"⟩)
    none "api.builtwith.com" (fun _ => .success (.obj [])) "0123456789"
    rfl (by decide)

/-- C8: the discovery surface exposes exactly the registration-time
catalog; that catalog is exactly the declared name, declared description
and the rendered input schema of every registered tool (the hand-written
`domain-lookup` entry agrees with the rendering of its zod schema); and
the rendering is faithful — it determines the field's type and its
required/optional status. -/
theorem C8_catalog_roundtrip :
    discoveryDoc.tools = toolCatalog ∧
    toolCatalog = (domainLookupDecl :: jsonToolDecls).map
      (fun d => CatalogEntry.mk d.name d.description
        (zodSchemaToJson d.schema)) ∧
    ∀ f1 f2 : ZodField, renderZodField f1 = renderZodField f2 → f1 = f2 := by
  refine ⟨rfl, by decide, ?_⟩
  intro f1 f2 h
  rcases f1 with t1 | t1 <;> rcases f2 with t2 | t2 <;>
    rcases t1 <;> rcases t2 <;> revert h <;> decide

/-- C8 witness: faithfulness applied at a concrete rendered field. -/
theorem C8_catalog_roundtrip_witness :
    ZodField.optional ZodType.boolean = ZodField.optional ZodType.boolean :=
  C8_catalog_roundtrip.2.2 (ZodField.optional ZodType.boolean)
    (ZodField.optional ZodType.boolean) rfl

/-- C1: under any interleaved schedule of two per-request invocations
carrying distinct non-empty bearer credentials, every outbound call of
either invocation carries that invocation's own credential and never the
sibling's — the AsyncLocalStorage store is scoped per `als.run`, so the
key resolved at the call site always comes from the invocation's own
store. -/
theorem C1_credential_isolation (k1 k2 : String) (fallback : Option String)
    (sched : List Nat) (h1 : k1 ≠ "") (h2 : k2 ≠ "") (hd : k1 ≠ k2) :
    ∀ ev ∈ (runSched fallback sched
        [mkRequestTask (some k1), mkRequestTask (some k2)]).2,
      (ev.tid = 0 → ev.key = some k1 ∧ ev.key ≠ some k2) ∧
      (ev.tid = 1 → ev.key = some k2 ∧ ev.key ≠ some k1) := by
  intro ev hev
  have hσ : sysInv fallback
      (fun i => if i = 0 then some ⟨some k1⟩ else some ⟨some k2⟩)
      [mkRequestTask (some k1), mkRequestTask (some k2)] := by
    intro i t ht
    match i with
    | 0 =>
      have hteq : t = mkRequestTask (some k1) := by
        simpa using ht.symm
      subst hteq
      exact ⟨rfl, fun hpc => absurd rfl hpc⟩
    | 1 =>
      have hteq : t = mkRequestTask (some k2) := by
        simpa using ht.symm
      subst hteq
      exact ⟨rfl, fun hpc => absurd rfl hpc⟩
    | (n + 2) =>
      simp at ht
  have hkey := runSched_events fallback
    (fun i => if i = 0 then some ⟨some k1⟩ else some ⟨some k2⟩) sched
    [mkRequestTask (some k1), mkRequestTask (some k2)] hσ ev hev
  constructor
  · intro h0
    rw [h0] at hkey
    have hres : getCurrentApiKey (some ⟨some k1⟩) fallback = some k1 := by
      simp [getCurrentApiKey, jsOrStr, truthyStr, h1]
    have hkey1 : ev.key = some k1 := by
      rw [hkey]
      exact hres
    refine ⟨hkey1, ?_⟩
    rw [hkey1]
    intro hc
    exact hd (by simpa using hc)
  · intro h0
    rw [h0] at hkey
    have hres : getCurrentApiKey (some ⟨some k2⟩) fallback = some k2 := by
      simp [getCurrentApiKey, jsOrStr, truthyStr, h2]
    have hkey1 : ev.key = some k2 := by
      rw [hkey]
      exact hres
    refine ⟨hkey1, ?_⟩
    rw [hkey1]
    intro hc
    exact hd (by simpa using hc.symm)

/-- C1 witness: a concrete interleaved schedule of two requests produces
one outbound call per request, each carrying its own credential. -/
theorem C1_credential_isolation_witness :
    (runSched none [0, 1, 0, 1]
        [mkRequestTask (some "0123456789"),
         mkRequestTask (some "abcdefghij")]).2 =
      [⟨0, some "0123456789"⟩, ⟨1, some "abcdefghij"⟩] ∧
    ∀ ev ∈ (runSched none [0, 1, 0, 1]
        [mkRequestTask (some "0123456789"),
         mkRequestTask (some "abcdefghij")]).2,
      (ev.tid = 0 → ev.key = some "0123456789" ∧
        ev.key ≠ some "abcdefghij") ∧
      (ev.tid = 1 → ev.key = some "abcdefghij" ∧
        ev.key ≠ some "0123456789") :=
  ⟨by decide,
   C1_credential_isolation "0123456789" "abcdefghij" none [0, 1, 0, 1]
     (by decide) (by decide) (by decide)⟩

end BwMcp
